import Mathlib

/-!
Shallow embedding of the combat / war / siege core of the EU6 repository
(src/army.rs, src/war.rs, src/map.rs), together with theorems settling the
frozen claims about it.  Machine integers (`u32`, `usize`) are embedded as
`Nat`; `bevy` `Entity` identifiers are embedded as `Nat`; ECS component
lookups are embedded as explicit lists or `Option`-valued lookup functions.
-/

namespace EU6


/-- Country / army / province identifiers (bevy `Entity`). -/
abbrev Entity := Nat

/-- Axial hex coordinate (src/hex.rs). -/
structure Hex where
  q : Int
  r : Int
deriving DecidableEq

/-- Terrain enum (src/map.rs). -/
inductive Terrain where
  | Plains
  | Hills
  | Mountains
  | Forest
  | Desert
  | Wasteland
  | Sea
deriving DecidableEq

/-- Province component (src/map.rs): display name, hex, terrain. -/
structure Province where
  name : String
  hex : Hex
  terrain : Terrain
deriving DecidableEq

/-- `Province::is_ownable` (src/map.rs): true unless terrain is Sea or
Wasteland. -/
def Province.is_ownable (p : Province) : Bool :=
  match p.terrain with
  | Terrain.Sea => false
  | Terrain.Wasteland => false
  | _ => true

/-- `ArmyComposition` (src/army.rs): three u32 unit counts. -/
structure ArmyComposition where
  infantry : Nat
  cavalry : Nat
  artillery : Nat
deriving DecidableEq

/-- `ArmyComposition::total_size` (src/army.rs). -/
def ArmyComposition.total_size (c : ArmyComposition) : Nat :=
  c.infantry + c.cavalry + c.artillery

/-- `MIN_DAMAGE` constant (src/army.rs line 149). -/
def MIN_DAMAGE : Nat := 5

/-- `apply_damage_to_composition` (src/army.rs lines 1153-1184).
Returns the composition after casualties together with `actual_lost`,
the number of units removed.  The Rust sequence of mutations of
`remaining_to_kill` is embedded as the chain `r0, r1, r2, r3`. -/
def apply_damage_to_composition (comp : ArmyComposition) (damage : Nat) :
    ArmyComposition × Nat :=
  let units_lost := damage / 20
  let r0 := units_lost
  let r1 := if r0 = 0 ∧ 0 < damage
            then min (min damage MIN_DAMAGE) comp.total_size else r0
  let total := comp.total_size
  let r2 := if total < r1 then total else r1
  let r3 := if r2 = 0 ∧ 0 < total ∧ 0 < damage then 1 else r2
  let kill_inf := min r3 comp.infantry
  let inf' := comp.infantry - kill_inf
  let rem1 := r3 - kill_inf
  let kill_cav := min rem1 comp.cavalry
  let cav' := comp.cavalry - kill_cav
  let rem2 := rem1 - kill_cav
  let kill_art := min rem2 comp.artillery
  let art' := comp.artillery - kill_art
  (⟨inf', cav', art'⟩, r3)

/-- `apply_damage_to_side` (src/army.rs lines 1096-1115): splits the side's
total incoming damage evenly over the armies of the side (integer division),
but each army is hit with `damage_per_army.max(1)`.  Armies are represented
by their compositions; the Rust `total_lost` accumulator is the sum of the
per-army `actual_lost` values. -/
def apply_damage_to_side (armies : List ArmyComposition) (total_damage : Nat) :
    List ArmyComposition × Nat :=
  if armies.isEmpty then ([], 0)
  else
    let damage_per_army := total_damage / armies.length
    let hits := armies.map
      (fun comp => apply_damage_to_composition comp (max damage_per_army 1))
    (hits.map Prod.fst, (hits.map Prod.snd).sum)

/-- Total unit count of a list of armies (one side of a battle). -/
def side_total (l : List ArmyComposition) : Nat :=
  (l.map ArmyComposition.total_size).sum

/-- `BattleSide` enum (src/army.rs). -/
inductive BattleSide where
  | Attacker
  | Defender
deriving DecidableEq

/-- `Battle` component (src/army.rs lines 169-181). -/
structure Battle where
  attackers : List Entity
  defenders : List Entity
  attacker_country : Entity
  defender_country : Entity
  location : Hex
  round : Nat
  last_damage_attacker : Nat
  last_damage_defender : Nat
deriving DecidableEq

/-- `Occupied` component (src/war.rs): the occupying country. -/
structure Occupied where
  occupier : Entity
deriving DecidableEq

/-- The war-relevant per-province component state: the `Owner` component and
the optional `Occupied` component of a province entity. -/
structure ProvinceWarState where
  owner : Entity
  occupied : Option Occupied
deriving DecidableEq

/-- `occupy_province` (src/war.rs lines 284-289): inserts an `Occupied`
marker naming the occupier.  It does not touch the `Owner` component. -/
def occupy_province (st : ProvinceWarState) (occupier : Entity) :
    ProvinceWarState :=
  { st with occupied := some ⟨occupier⟩ }

/-- The winner-dispatch of `resolve_battles` (src/army.rs lines 993-1032),
after dead armies have been dropped from both lists: both sides empty is
mutual destruction (no winner), exactly one empty side makes the other side
the winner, and with both sides non-empty the battle continues. -/
def battle_winner (b : Battle) : Option BattleSide :=
  if b.attackers = [] ∧ b.defenders = [] then none
  else if b.attackers = [] then some BattleSide.Defender
  else if b.defenders = [] then some BattleSide.Attacker
  else none

/-- The province-occupation step of `end_battle_multi` (src/army.rs lines
1196-1260): only when the winning side is the attacker, and the province at
the battle location exists, is ownable, and is not already owned by the
winner's country, is `occupy_province` invoked on it. -/
def end_battle_multi_occupation (b : Battle) (winner_side : BattleSide)
    (province_at_location : Option (Province × ProvinceWarState)) :
    Option (Province × ProvinceWarState) :=
  let winner_country := match winner_side with
    | BattleSide.Attacker => b.attacker_country
    | BattleSide.Defender => b.defender_country
  match province_at_location with
  | some (province, st) =>
      if winner_side = BattleSide.Attacker ∧ province.is_ownable = true ∧
          st.owner ≠ winner_country then
        some (province, occupy_province st winner_country)
      else some (province, st)
  | none => none

/-- Battle resolution's full effect on the province at the battle location:
dispatch on `battle_winner`, then apply the `end_battle_multi` occupation
step (a battle that continues, or ends in mutual destruction, leaves the
province untouched). -/
def resolve_battle_province_update (b : Battle)
    (province_at_location : Option (Province × ProvinceWarState)) :
    Option (Province × ProvinceWarState) :=
  match battle_winner b with
  | some side => end_battle_multi_occupation b side province_at_location
  | none => province_at_location

/-- `SiegeProgress` component (src/war.rs lines 209-213). -/
structure SiegeProgress where
  besieger_country : Entity
  progress : Nat
deriving DecidableEq

/-- `SIEGE_TURNS_REQUIRED` constant (src/war.rs line 215). -/
def SIEGE_TURNS_REQUIRED : Nat := 3

/-- An army as seen by the siege system: its entity, its `HexPos`, and its
`Owner` country. -/
structure ArmyOnMap where
  army : Entity
  pos : Hex
  owner : Entity

/-- `is_besieger_present` (src/war.rs lines 78-90): does some army of the
besieging country stand on a hex mapping to this province? -/
def is_besieger_present (province_entity : Entity) (siege : SiegeProgress)
    (armies : List ArmyOnMap) (province_hex_map : Hex → Option Entity) :
    Bool :=
  armies.any fun a =>
    match province_hex_map a.pos with
    | some prov =>
        decide (prov = province_entity) &&
          decide (a.owner = siege.besieger_country)
    | none => false

/-- `advance_siege` (src/war.rs lines 92-111): increment progress; once the
threshold is reached, drop the siege record and insert `Occupied` naming the
besieger.  Returns the resulting optional `SiegeProgress` component and the
optional `Occupied` component inserted. -/
def advance_siege (siege : SiegeProgress) :
    Option SiegeProgress × Option Occupied :=
  let siege' : SiegeProgress :=
    { siege with progress := siege.progress + 1 }
  if SIEGE_TURNS_REQUIRED ≤ siege'.progress then
    (none, some ⟨siege'.besieger_country⟩)
  else (some siege', none)

/-- The per-province body of `update_existing_sieges` (src/war.rs lines
55-116), acting on a province that currently carries a `SiegeProgress`
component: result is (siege component after, occupied component after, owner
after).  An already-occupied province merely loses its siege record;
otherwise the siege advances if the besieger is still present and is lifted
if not.  The `Owner` component is never written. -/
def update_existing_siege (province_entity : Entity) (owner : Entity)
    (occupied : Option Occupied) (siege : SiegeProgress)
    (armies : List ArmyOnMap) (province_hex_map : Hex → Option Entity) :
    Option SiegeProgress × Option Occupied × Entity :=
  if occupied.isSome then (none, occupied, owner)
  else if is_besieger_present province_entity siege armies province_hex_map
  then
    let r := advance_siege siege
    (r.1, r.2, owner)
  else (none, none, owner)

/-- `War` component (src/war.rs lines 164-168). -/
structure War where
  attacker : Entity
  defender : Entity
deriving DecidableEq

/-- `PeaceOffer` component (src/war.rs lines 217-223).  The Rust field
`from` and the field `to` are Lean keywords and are embedded as
`from_country` and `to_country`. -/
structure PeaceOffer where
  from_country : Entity
  to_country : Entity
  war_entity : Entity
  provinces_to_cede : List Entity
deriving DecidableEq

/-- A province entity as the war systems see it: its id, its `Owner`
component and its optional `Occupied` component. -/
structure ProvinceRow where
  id : Entity
  owner : Entity
  occupied : Option Occupied
deriving DecidableEq

/-- The state touched by war declaration and peace acceptance: the spawned
`War` components (by entity), the `Wars.active_wars` resource, every
country's `WarRelations` component (a country without the component behaves
as an empty set, which is how `are_at_war` and `add_war_relation` treat it),
the provinces, and the spawned `PeaceOffer` components (by entity). -/
structure GameState where
  wars : List (Entity × War)
  active_wars : List Entity
  relations : Entity → Finset Entity
  provinces : List ProvinceRow
  offers : List (Entity × PeaceOffer)

/-- ECS `Query::get` on a component list keyed by entity. -/
def lookup {α : Type} (l : List (Entity × α)) (e : Entity) : Option α :=
  (l.find? (fun p => p.1 == e)).map Prod.snd

/-- `Commands::despawn` of an entity from a component list. -/
def despawn {α : Type} (l : List (Entity × α)) (e : Entity) :
    List (Entity × α) :=
  l.filter (fun p => !(p.1 == e))

/-- `validate_war_declaration` (src/war.rs lines 312-330): rejects a
self-war and a pair where the attacker's relations already contain the
defender. -/
def validate_war_declaration (attacker defender : Entity)
    (relations : Entity → Finset Entity) : Bool :=
  if attacker = defender then false
  else if defender ∈ relations attacker then false
  else true

/-- `add_war_relation` (src/war.rs lines 350-363): insert `enemy` into
`country`'s relation set (creating the component if absent — absent and
empty coincide in this embedding). -/
def add_war_relation (relations : Entity → Finset Entity)
    (country enemy : Entity) : Entity → Finset Entity :=
  fun c => if c = country then insert enemy (relations c) else relations c

/-- `update_war_relations` (src/war.rs lines 341-348): insert the symmetric
entry on both sides. -/
def update_war_relations (relations : Entity → Finset Entity)
    (attacker defender : Entity) : Entity → Finset Entity :=
  add_war_relation (add_war_relation relations attacker defender)
    defender attacker

/-- `remove_war_relations` (src/war.rs lines 568-575): erase the defender
from the attacker's set and the attacker from the defender's set. -/
def remove_war_relations (relations : Entity → Finset Entity) (war : War) :
    Entity → Finset Entity :=
  let r1 := fun c =>
    if c = war.attacker then (relations c).erase war.defender
    else relations c
  fun c => if c = war.defender then (r1 c).erase war.attacker else r1 c

/-- One `DeclareWarEvent` processed by `handle_declare_war` (src/war.rs
lines 295-310): if validation passes, a `War` entity `fresh` is spawned,
pushed onto `Wars.active_wars`, and the relations are updated symmetrically;
otherwise nothing changes. -/
def handle_declare_war_event (st : GameState) (fresh : Entity)
    (attacker defender : Entity) : GameState :=
  if validate_war_declaration attacker defender st.relations then
    { st with
      wars := st.wars ++ [(fresh, ⟨attacker, defender⟩)],
      active_wars := st.active_wars ++ [fresh],
      relations := update_war_relations st.relations attacker defender }
  else st

/-- `transfer_provinces` (src/war.rs lines 543-554): every ceded province
loses its `Occupied` marker and its `Owner` becomes the offer's proposer. -/
def transfer_provinces (peace_offer : PeaceOffer)
    (provinces : List ProvinceRow) : List ProvinceRow :=
  provinces.map fun p =>
    if p.id ∈ peace_offer.provinces_to_cede then
      { p with occupied := none, owner := peace_offer.from_country }
    else p

/-- `clear_occupations` (src/war.rs lines 556-566): every province whose
`Occupied` marker names the war's attacker or defender as occupier loses the
marker.  Only the occupier is consulted — the province's owner is not. -/
def clear_occupations (war : War) (provinces : List ProvinceRow) :
    List ProvinceRow :=
  provinces.map fun p =>
    match p.occupied with
    | some occ =>
        if occ.occupier = war.attacker ∨ occ.occupier = war.defender then
          { p with occupied := none }
        else p
    | none => p

/-- `execute_peace_terms` (src/war.rs lines 530-541): transfer the ceded
provinces, clear the belligerents' occupations, remove the war relations. -/
def execute_peace_terms (peace_offer : PeaceOffer) (war : War)
    (relations : Entity → Finset Entity) (provinces : List ProvinceRow) :
    List ProvinceRow × (Entity → Finset Entity) :=
  let ps1 := transfer_provinces peace_offer provinces
  let ps2 := clear_occupations war ps1
  (ps2, remove_war_relations relations war)

/-- `process_peace_acceptance` (src/war.rs lines 487-528): look up the peace
offer; if missing, no-op.  Look up its war; if missing, despawn the offer
only.  Otherwise execute the peace terms and clean up: the war is removed
from `Wars.active_wars` and despawned, and the offer is despawned. -/
def process_peace_acceptance (st : GameState) (offer_entity : Entity) :
    GameState :=
  match lookup st.offers offer_entity with
  | none => st
  | some offer =>
    match lookup st.wars offer.war_entity with
    | none => { st with offers := despawn st.offers offer_entity }
    | some war =>
      let r := execute_peace_terms offer war st.relations st.provinces
      { st with
        provinces := r.1,
        relations := r.2,
        wars := despawn st.wars offer.war_entity,
        active_wars := st.active_wars.filter
          (fun e => !(e == offer.war_entity)),
        offers := despawn st.offers offer_entity }

/-- A completed declare-war or peace-acceptance operation. -/
inductive WarOp where
  | declare (fresh attacker defender : Entity)
  | accept_peace (offer_entity : Entity)

/-- Apply one operation to the game state. -/
def applyOp (st : GameState) : WarOp → GameState
  | WarOp.declare fresh attacker defender =>
      handle_declare_war_event st fresh attacker defender
  | WarOp.accept_peace offer_entity =>
      process_peace_acceptance st offer_entity

/-- Apply a sequence of operations. -/
def applyOps (st : GameState) (ops : List WarOp) : GameState :=
  ops.foldl applyOp st

/-- The war-relations symmetry invariant: X's set contains Y iff Y's set
contains X. -/
def WarSymmetric (r : Entity → Finset Entity) : Prop :=
  ∀ x y, y ∈ r x ↔ x ∈ r y

/-- The initial session state: no wars, no relations, no offers. -/
def initGameState : GameState :=
  ⟨[], [], fun _ => ∅, [], []⟩

/-- `count_provinces_from_recipient` (src/war.rs lines 445-459): how many of
the demanded provinces are actually owned by the offer's recipient. -/
def count_provinces_from_recipient (offer : PeaceOffer)
    (provinces : List ProvinceRow) : Nat :=
  (offer.provinces_to_cede.filter fun prov =>
    match lookup (provinces.map fun p => (p.id, p.owner)) prov with
    | some o => o == offer.to_country
    | none => false).length

/-- `evaluate_peace_offer` (src/war.rs lines 426-443).  The `f32` comparison
`provinces_from_recipient as f32 / total_ai_provinces as f32 < 0.3` is
embedded as the exact comparison `10 * k < 3 * n`: for the province counts
the game produces these agree, since counts are exactly representable,
division rounds to nearest, and `0.3f32` lies above `3/10`. -/
def evaluate_peace_offer (offer : PeaceOffer)
    (provinces : List ProvinceRow) : Bool :=
  let provinces_demanded := offer.provinces_to_cede.length
  if provinces_demanded = 0 then true
  else
    let provinces_from_recipient :=
      count_provinces_from_recipient offer provinces
    if provinces_from_recipient ≤ 2 then true
    else
      let total_ai_provinces :=
        (provinces.filter (fun p => p.owner == offer.to_country)).length
      if 0 < total_ai_provinces then
        decide (10 * provinces_from_recipient < 3 * total_ai_provinces)
      else false

/-- The outcome of `process_ai_peace_decision` (src/war.rs lines 402-424):
either an `AcceptPeaceEvent` is emitted, or the offer is despawned with no
other effect. -/
inductive AiPeaceDecision where
  | accept_offer
  | reject_and_despawn
deriving DecidableEq

/-- `process_ai_peace_decision` (src/war.rs lines 402-424). -/
def process_ai_peace_decision (offer : PeaceOffer)
    (provinces : List ProvinceRow) : AiPeaceDecision :=
  if evaluate_peace_offer offer provinces then AiPeaceDecision.accept_offer
  else AiPeaceDecision.reject_and_despawn

lemma adc_lost_eq (c : ArmyComposition) (d : Nat) :
    (apply_damage_to_composition c d).2 =
      if 0 < d / 20 then min (d / 20) c.total_size
      else if 0 < d then min (min d MIN_DAMAGE) c.total_size
      else 0 := by
  obtain ⟨i, cv, a⟩ := c
  simp only [apply_damage_to_composition, ArmyComposition.total_size, MIN_DAMAGE]
  split_ifs <;> omega

lemma adc_lost_le (c : ArmyComposition) (d : Nat) :
    (apply_damage_to_composition c d).2 ≤ c.total_size := by
  rw [adc_lost_eq]
  split_ifs <;> omega

lemma adc_lost_pos (c : ArmyComposition) (d : Nat)
    (hd : 0 < d) (ht : 0 < c.total_size) :
    0 < (apply_damage_to_composition c d).2 := by
  rw [adc_lost_eq]
  simp only [MIN_DAMAGE]
  split_ifs <;> omega

lemma adc_fields (c : ArmyComposition) (d : Nat) :
    (apply_damage_to_composition c d).1.infantry =
        c.infantry - min (apply_damage_to_composition c d).2 c.infantry ∧
    (apply_damage_to_composition c d).1.cavalry =
        c.cavalry -
          min ((apply_damage_to_composition c d).2 -
                min (apply_damage_to_composition c d).2 c.infantry) c.cavalry ∧
    (apply_damage_to_composition c d).1.artillery =
        c.artillery -
          min (((apply_damage_to_composition c d).2 -
                min (apply_damage_to_composition c d).2 c.infantry) -
              min ((apply_damage_to_composition c d).2 -
                    min (apply_damage_to_composition c d).2 c.infantry) c.cavalry)
            c.artillery := by
  obtain ⟨i, cv, a⟩ := c
  exact ⟨rfl, rfl, rfl⟩

lemma adc_total_eq (c : ArmyComposition) (d : Nat) :
    (apply_damage_to_composition c d).1.total_size =
      c.total_size - (apply_damage_to_composition c d).2 := by
  obtain ⟨h1, h2, h3⟩ := adc_fields c d
  have hle := adc_lost_le c d
  simp only [ArmyComposition.total_size] at *
  omega

lemma adc_total_le (c : ArmyComposition) (d : Nat) :
    (apply_damage_to_composition c d).1.total_size ≤ c.total_size := by
  rw [adc_total_eq]; omega

lemma adc_total_lt (c : ArmyComposition) (d : Nat)
    (hd : 0 < d) (ht : 0 < c.total_size) :
    (apply_damage_to_composition c d).1.total_size < c.total_size := by
  have := adc_lost_pos c d hd ht
  rw [adc_total_eq]
  omega

lemma adc_one_total (c : ArmyComposition) :
    (apply_damage_to_composition c 1).1.total_size = c.total_size - 1 := by
  rw [adc_total_eq, adc_lost_eq]
  simp only [MIN_DAMAGE]
  split_ifs <;> omega

lemma side_total_nil : side_total [] = 0 := rfl

lemma side_total_cons (c : ArmyComposition) (l : List ArmyComposition) :
    side_total (c :: l) = c.total_size + side_total l := by
  simp [side_total]

lemma side_total_map_le (f : ArmyComposition → ArmyComposition)
    (hf : ∀ c, (f c).total_size ≤ c.total_size) (l : List ArmyComposition) :
    side_total (l.map f) ≤ side_total l := by
  induction l with
  | nil => simp [side_total]
  | cons c l ih =>
    rw [List.map_cons, side_total_cons, side_total_cons]
    exact Nat.add_le_add (hf c) ih

lemma side_total_map_lt (f : ArmyComposition → ArmyComposition)
    (hle : ∀ c, (f c).total_size ≤ c.total_size)
    (hlt : ∀ c, 0 < c.total_size → (f c).total_size < c.total_size)
    (l : List ArmyComposition) (h0 : 0 < side_total l) :
    side_total (l.map f) < side_total l := by
  induction l with
  | nil => simp [side_total] at h0
  | cons c l ih =>
    rw [List.map_cons, side_total_cons, side_total_cons]
    rw [side_total_cons] at h0
    by_cases hc : 0 < c.total_size
    · have := side_total_map_le f hle l
      have := hlt c hc
      omega
    · have h0' : 0 < side_total l := by omega
      have := ih h0'
      have := hle c
      omega

lemma apply_damage_to_side_fst (armies : List ArmyComposition) (D : Nat)
    (h : armies ≠ []) :
    (apply_damage_to_side armies D).1 = armies.map
      (fun c =>
        (apply_damage_to_composition c (max (D / armies.length) 1)).1) := by
  have h' : armies.isEmpty = false := by
    cases armies with
    | nil => exact absurd rfl h
    | cons a l => rfl
  simp [apply_damage_to_side, h', List.map_map]

lemma forall2_sub_one (l : List ArmyComposition) :
    List.Forall₂ (fun c c' => c'.total_size = c.total_size - 1) l
      (l.map (fun c => (apply_damage_to_composition c 1).1)) := by
  induction l with
  | nil => exact List.Forall₂.nil
  | cons c l ih => exact List.Forall₂.cons (adc_one_total c) ih

/-- Claim C2 (counterexample).  The claim states that each opposing army
receives exactly `D / n` damage, and in particular that when `D < n` every
opposing army receives 0 damage and suffers no casualties that round.  At the
concrete input `D = 1` against a side of `n = 2` armies of 10 infantry each
(`1 / 2 = 0`), the code nevertheless inflicts casualties: each army loses one
unit, refuting the claim. -/
theorem claim2_counterexample :
    (1 : Nat) / 2 = 0 ∧ (1 : Nat) < 2 ∧
    (apply_damage_to_side
        [⟨10, 0, 0⟩, ⟨10, 0, 0⟩] 1).1 ≠ [⟨10, 0, 0⟩, ⟨10, 0, 0⟩] ∧
    (apply_damage_to_side
        [⟨10, 0, 0⟩, ⟨10, 0, 0⟩] 1).1 = [⟨9, 0, 0⟩, ⟨9, 0, 0⟩] := by
  decide

/-- Claim C2 (amended).  Each side's effective damage `D` is split over the
`n` opposing armies by integer division, but each army is struck with
`max (D / n, 1)` damage — the per-army damage is floored at 1.  In
particular, when `D < n` every opposing army is struck with 1 damage and
loses exactly one unit (down to zero for an already-empty army). -/
theorem claim2_amended (comps : List ArmyComposition) (D : Nat)
    (h : comps ≠ []) :
    (apply_damage_to_side comps D).1 = comps.map
      (fun c =>
        (apply_damage_to_composition c (max (D / comps.length) 1)).1) ∧
    (D < comps.length →
      List.Forall₂ (fun c c' => c'.total_size = c.total_size - 1)
        comps (apply_damage_to_side comps D).1) := by
  refine ⟨apply_damage_to_side_fst comps D h, ?_⟩
  intro hlt
  have hdiv : D / comps.length = 0 := Nat.div_eq_of_lt hlt
  rw [apply_damage_to_side_fst comps D h, hdiv]
  simp only [show (max 0 1 : Nat) = 1 from rfl]
  exact forall2_sub_one comps

/-- Claim C2 (amended) witness at a concrete input: one army of 10 infantry
struck by total side damage 0 still loses exactly one unit. -/
theorem claim2_amended_witness :
    List.Forall₂ (fun c c' => c'.total_size = c.total_size - 1)
      [(⟨10, 0, 0⟩ : ArmyComposition)]
      (apply_damage_to_side [(⟨10, 0, 0⟩ : ArmyComposition)] 0).1 :=
  (claim2_amended [⟨10, 0, 0⟩] 0 (by decide)).2 (by decide)

/-- Claim C3.  For an army receiving per-army damage `d > 0`: when
`d / 20 > 0` the number of units removed is exactly `d / 20`, capped by the
army's current total size; when `d / 20 = 0` and the army is non-empty, at
least `min (d, 5)` units (capped by the total size, which the claim's own
"never more than the army's current total size" clause imposes) are removed;
in all cases the removal never exceeds the army's total size, and every
composition field only decreases (no underflow). -/
theorem claim3 (c : ArmyComposition) (d : Nat) (hd : 0 < d) :
    (0 < d / 20 →
        (apply_damage_to_composition c d).2 = min (d / 20) c.total_size) ∧
    (d / 20 = 0 → 0 < c.total_size →
        min (min d 5) c.total_size ≤ (apply_damage_to_composition c d).2) ∧
    (apply_damage_to_composition c d).2 ≤ c.total_size ∧
    (apply_damage_to_composition c d).1.infantry ≤ c.infantry ∧
    (apply_damage_to_composition c d).1.cavalry ≤ c.cavalry ∧
    (apply_damage_to_composition c d).1.artillery ≤ c.artillery := by
  obtain ⟨h1, h2, h3⟩ := adc_fields c d
  have hLE := adc_lost_le c d
  have hLOST := adc_lost_eq c d
  simp only [MIN_DAMAGE] at hLOST
  refine ⟨fun ha => ?_, fun ha hb => ?_, hLE, ?_, ?_, ?_⟩
  · rw [hLOST]; split_ifs <;> omega
  · rw [hLOST]; split_ifs <;> omega
  · omega
  · omega
  · omega

/-- Claim C3 witness at a concrete input: army ⟨100, 50, 10⟩ and damage
`d = 60` (so `d / 20 = 3 > 0`): exactly 3 units removed. -/
theorem claim3_witness :
    (0 < 60 / 20 →
        (apply_damage_to_composition ⟨100, 50, 10⟩ 60).2 =
          min (60 / 20) (ArmyComposition.total_size ⟨100, 50, 10⟩)) ∧
    (60 / 20 = 0 → 0 < ArmyComposition.total_size ⟨100, 50, 10⟩ →
        min (min 60 5) (ArmyComposition.total_size ⟨100, 50, 10⟩) ≤
          (apply_damage_to_composition ⟨100, 50, 10⟩ 60).2) ∧
    (apply_damage_to_composition ⟨100, 50, 10⟩ 60).2 ≤
        ArmyComposition.total_size ⟨100, 50, 10⟩ ∧
    (apply_damage_to_composition ⟨100, 50, 10⟩ 60).1.infantry ≤ 100 ∧
    (apply_damage_to_composition ⟨100, 50, 10⟩ 60).1.cavalry ≤ 50 ∧
    (apply_damage_to_composition ⟨100, 50, 10⟩ 60).1.artillery ≤ 10 :=
  claim3 ⟨100, 50, 10⟩ 60 (by decide)

/-- Claim C4.  Casualties are removed in the fixed priority order
infantry → cavalry → artillery: if any cavalry was removed, the infantry has
been reduced to 0, and if any artillery was removed, both infantry and
cavalry have been reduced to 0; the removal consumes exactly the computed
casualty count (it stops when that count is exhausted or the army is
empty, `actual_lost` being capped by the total size). -/
theorem claim4 (c : ArmyComposition) (d : Nat) :
    ((apply_damage_to_composition c d).1.cavalry < c.cavalry →
        (apply_damage_to_composition c d).1.infantry = 0) ∧
    ((apply_damage_to_composition c d).1.artillery < c.artillery →
        (apply_damage_to_composition c d).1.infantry = 0 ∧
        (apply_damage_to_composition c d).1.cavalry = 0) ∧
    (apply_damage_to_composition c d).1.total_size =
        c.total_size - (apply_damage_to_composition c d).2 := by
  obtain ⟨h1, h2, h3⟩ := adc_fields c d
  have hle := adc_lost_le c d
  refine ⟨?_, ?_, adc_total_eq c d⟩ <;>
    · intro hh
      simp only [ArmyComposition.total_size] at *
      omega

/-- Claim C4 witness at a concrete input: army ⟨2, 3, 4⟩ taking damage 100
(5 casualties): all 2 infantry and 3 cavalry are removed, artillery intact.
The priority implications are discharged on this concrete outcome. -/
theorem claim4_witness :
    ((apply_damage_to_composition ⟨2, 3, 4⟩ 100).1.cavalry < 3 →
        (apply_damage_to_composition ⟨2, 3, 4⟩ 100).1.infantry = 0) ∧
    ((apply_damage_to_composition ⟨2, 3, 4⟩ 100).1.artillery < 4 →
        (apply_damage_to_composition ⟨2, 3, 4⟩ 100).1.infantry = 0 ∧
        (apply_damage_to_composition ⟨2, 3, 4⟩ 100).1.cavalry = 0) ∧
    (apply_damage_to_composition ⟨2, 3, 4⟩ 100).1.total_size =
        ArmyComposition.total_size ⟨2, 3, 4⟩ -
          (apply_damage_to_composition ⟨2, 3, 4⟩ 100).2 :=
  claim4 ⟨2, 3, 4⟩ 100

/-- Claim C5.  Casualty monotonicity: after a battle round, each side's
total unit count is at most its pre-round total, and it is strictly smaller
whenever the opposing side's effective damage is positive and the side's
pre-round total was positive. -/
theorem claim5 (comps : List ArmyComposition) (D : Nat) :
    side_total ((apply_damage_to_side comps D).1) ≤ side_total comps ∧
    (0 < D → 0 < side_total comps →
      side_total ((apply_damage_to_side comps D).1) < side_total comps) := by
  cases comps with
  | nil =>
    constructor
    · exact le_refl _
    · intro _ h0
      simp [side_total] at h0
  | cons c l =>
    have hne : (c :: l) ≠ ([] : List ArmyComposition) := by simp
    rw [apply_damage_to_side_fst (c :: l) D hne]
    have hdpos : 0 < max (D / (c :: l).length) 1 := by omega
    constructor
    · exact side_total_map_le _ (fun c2 => adc_total_le c2 _) (c :: l)
    · intro _ h0
      exact side_total_map_lt _ (fun c2 => adc_total_le c2 _)
        (fun c2 hc2 => adc_total_lt c2 _ hdpos hc2) (c :: l) h0

/-- Claim C5 witness at a concrete input: a side of one army of 100 infantry
hit with total effective damage 40 strictly shrinks. -/
theorem claim5_witness :
    side_total ((apply_damage_to_side
        [(⟨100, 0, 0⟩ : ArmyComposition)] 40).1) <
      side_total [(⟨100, 0, 0⟩ : ArmyComposition)] :=
  (claim5 [⟨100, 0, 0⟩] 40).2 (by decide) (by decide)

/-- Claim C1 (counterexample).  The claim states that after an attacker
victory on an ownable province not already owned by the attacker's country,
the attacker's country is the province's owner.  At a concrete such battle
(defenders eliminated, attacker country 1, Plains province owned by country
0) the resolved province is still owned by country 0 — the code only inserts
an `Occupied` marker (`occupy_province`) and never writes the `Owner`
component. -/
theorem claim1_counterexample :
    (Battle.defenders ⟨[7], [], 1, 0, ⟨0, 0⟩, 2, 0, 0⟩ = [] ∧
     Battle.attackers ⟨[7], [], 1, 0, ⟨0, 0⟩, 2, 0, 0⟩ ≠ [] ∧
     Province.is_ownable ⟨"p", ⟨0, 0⟩, Terrain.Plains⟩ = true ∧
     (0 : Entity) ≠ 1) ∧
    resolve_battle_province_update ⟨[7], [], 1, 0, ⟨0, 0⟩, 2, 0, 0⟩
        (some (⟨"p", ⟨0, 0⟩, Terrain.Plains⟩, ⟨0, none⟩)) =
      some (⟨"p", ⟨0, 0⟩, Terrain.Plains⟩, ⟨0, some ⟨1⟩⟩) ∧
    ¬ (∃ pr, resolve_battle_province_update ⟨[7], [], 1, 0, ⟨0, 0⟩, 2, 0, 0⟩
          (some (⟨"p", ⟨0, 0⟩, Terrain.Plains⟩, ⟨0, none⟩)) = some pr ∧
        pr.2.owner = 1) := by
  refine ⟨⟨rfl, by decide, rfl, by decide⟩, rfl, ?_⟩
  rintro ⟨pr, hpr, hown⟩
  have hcomp : resolve_battle_province_update ⟨[7], [], 1, 0, ⟨0, 0⟩, 2, 0, 0⟩
      (some (⟨"p", ⟨0, 0⟩, Terrain.Plains⟩, ⟨0, none⟩)) =
      some (⟨"p", ⟨0, 0⟩, Terrain.Plains⟩, ⟨0, some ⟨1⟩⟩) := rfl
  rw [hcomp] at hpr
  injection hpr with hpr'
  rw [← hpr'] at hown
  exact absurd hown (by decide)

/-- Claim C1 (amended).  When battle resolution resolves a battle whose
defender list is empty and whose attacker list is non-empty (attacker
victory), and the province at the battle's location is ownable and not
already owned by the attacker's country, the province becomes *occupied* by
the attacker's country — an `Occupied` marker naming the attacker's country
as occupier is inserted — while the province's owner is unchanged. -/
theorem claim1_amended (b : Battle) (province : Province)
    (st : ProvinceWarState)
    (hdef : b.defenders = []) (hatt : b.attackers ≠ [])
    (hown : province.is_ownable = true)
    (hnot : st.owner ≠ b.attacker_country) :
    resolve_battle_province_update b (some (province, st)) =
      some (province,
        { st with occupied := some ⟨b.attacker_country⟩ }) ∧
    ∀ pr, resolve_battle_province_update b (some (province, st)) = some pr →
      pr.2.owner = st.owner := by
  have hw : battle_winner b = some BattleSide.Attacker := by
    simp [battle_winner, hdef, hatt]
  constructor
  · simp [resolve_battle_province_update, hw, end_battle_multi_occupation,
      hown, hnot, occupy_province]
  · intro pr hpr
    simp [resolve_battle_province_update, hw, end_battle_multi_occupation,
      hown, hnot, occupy_province] at hpr
    rw [← hpr]

/-- Claim C1 (amended) witness at a concrete input: attacker country 1 wins
on a Plains province owned by country 0; the province ends occupied by 1 and
still owned by 0. -/
theorem claim1_amended_witness :
    resolve_battle_province_update ⟨[7], [], 1, 0, ⟨0, 0⟩, 2, 0, 0⟩
        (some (⟨"p", ⟨0, 0⟩, Terrain.Plains⟩, ⟨0, none⟩)) =
      some (⟨"p", ⟨0, 0⟩, Terrain.Plains⟩,
        { owner := 0, occupied := some ⟨1⟩ }) ∧
    ∀ pr, resolve_battle_province_update ⟨[7], [], 1, 0, ⟨0, 0⟩, 2, 0, 0⟩
          (some (⟨"p", ⟨0, 0⟩, Terrain.Plains⟩, ⟨0, none⟩)) = some pr →
        pr.2.owner = 0 :=
  claim1_amended ⟨[7], [], 1, 0, ⟨0, 0⟩, 2, 0, 0⟩
    ⟨"p", ⟨0, 0⟩, Terrain.Plains⟩ ⟨0, none⟩
    rfl (by decide) rfl (by decide)

/-- Claim C9.  For a province under siege (and not already occupied): if the
besieging country still has an army on the province's hex, progress
increments by 1; when the incremented progress reaches the threshold
`SIEGE_TURNS_REQUIRED = 3` the siege record is removed and the province
becomes occupied by the besieging country; below the threshold the siege
record survives with progress+1 and no occupation.  If no besieging army is
present, the siege record is removed the same turn, with no `Occupied`
marker and the owner unchanged.  In every case the `Owner` component is
untouched. -/
theorem claim9 (province_entity : Entity) (owner : Entity)
    (siege : SiegeProgress) (armies : List ArmyOnMap)
    (province_hex_map : Hex → Option Entity) :
    (is_besieger_present province_entity siege armies province_hex_map =
        true →
      (SIEGE_TURNS_REQUIRED ≤ siege.progress + 1 →
        update_existing_siege province_entity owner none siege armies
            province_hex_map =
          (none, some ⟨siege.besieger_country⟩, owner)) ∧
      (siege.progress + 1 < SIEGE_TURNS_REQUIRED →
        update_existing_siege province_entity owner none siege armies
            province_hex_map =
          (some ⟨siege.besieger_country, siege.progress + 1⟩, none,
            owner))) ∧
    (is_besieger_present province_entity siege armies province_hex_map =
        false →
      update_existing_siege province_entity owner none siege armies
          province_hex_map = (none, none, owner)) := by
  constructor
  · intro hpres
    constructor
    · intro hthr
      simp [update_existing_siege, hpres, advance_siege, hthr]
    · intro hthr
      simp [update_existing_siege, hpres, advance_siege, Nat.not_le.mpr hthr]
  · intro habs
    simp [update_existing_siege, habs]

/-- Claim C9 witness at a concrete input: province entity 3 owned by country
0, besieged by country 1 at progress 2, with a besieging army of country 1
standing on hex (0,0) which maps to province 3: the siege completes and the
province becomes occupied by country 1, owner unchanged. -/
theorem claim9_witness :
    update_existing_siege 3 0 none ⟨1, 2⟩ [⟨9, ⟨0, 0⟩, 1⟩]
        (fun h => if h = ⟨0, 0⟩ then some 3 else none) =
      (none, some ⟨1⟩, 0) :=
  ((claim9 3 0 ⟨1, 2⟩ [⟨9, ⟨0, 0⟩, 1⟩]
      (fun h => if h = ⟨0, 0⟩ then some 3 else none)).1
    (by decide)).1 (by decide)

lemma mem_update_war_relations (r : Entity → Finset Entity)
    (a d x y : Entity) :
    y ∈ update_war_relations r a d x ↔
      (x = d ∧ y = a) ∨ (x = a ∧ y = d) ∨ y ∈ r x := by
  simp only [update_war_relations, add_war_relation]
  split_ifs with h1 h2 h3 <;> simp_all [Finset.mem_insert]

lemma mem_remove_war_relations (r : Entity → Finset Entity) (war : War)
    (x y : Entity) :
    y ∈ remove_war_relations r war x ↔
      y ∈ r x ∧ ¬(x = war.attacker ∧ y = war.defender) ∧
        ¬(x = war.defender ∧ y = war.attacker) := by
  obtain ⟨wa, wd⟩ := war
  simp only [remove_war_relations]
  split_ifs with h1 h2 h3 <;> simp_all [Finset.mem_erase] <;> tauto

lemma update_preserves_symmetric (r : Entity → Finset Entity)
    (a d : Entity) (h : WarSymmetric r) :
    WarSymmetric (update_war_relations r a d) := by
  intro x y
  rw [mem_update_war_relations, mem_update_war_relations]
  have := h x y
  tauto

lemma remove_preserves_symmetric (r : Entity → Finset Entity) (war : War)
    (h : WarSymmetric r) :
    WarSymmetric (remove_war_relations r war) := by
  intro x y
  rw [mem_remove_war_relations, mem_remove_war_relations]
  have := h x y
  tauto

lemma applyOp_preserves_symmetric (st : GameState) (op : WarOp)
    (h : WarSymmetric st.relations) :
    WarSymmetric (applyOp st op).relations := by
  cases op with
  | declare fresh a d =>
    simp only [applyOp, handle_declare_war_event]
    split_ifs
    · exact update_preserves_symmetric _ a d h
    · exact h
  | accept_peace oe =>
    simp only [applyOp, process_peace_acceptance]
    cases ho : lookup st.offers oe with
    | none => simp only [ho]; exact h
    | some offer =>
      simp only [ho]
      cases hw : lookup st.wars offer.war_entity with
      | none => simp only [hw]; exact h
      | some war =>
        simp only [hw]
        exact remove_preserves_symmetric st.relations war h

/-- Claim C6.  War-relations symmetry: starting from any state whose
war-relations are symmetric (in particular the initial session state, where
they are all empty), after any sequence of completed declare-war and
peace-acceptance operations, country X's relation set contains Y iff Y's
contains X. -/
theorem claim6 (ops : List WarOp) (st : GameState)
    (h : WarSymmetric st.relations) :
    WarSymmetric (applyOps st ops).relations := by
  induction ops generalizing st with
  | nil => exact h
  | cons op ops ih => exact ih (applyOp st op) (applyOp_preserves_symmetric st op h)

/-- Claim C6 witness: the initial state is symmetric, and after the concrete
sequence (declare war 0 vs 1 spawning war entity 100, then accept peace
offer entity 50) symmetry still holds. -/
theorem claim6_witness :
    WarSymmetric initGameState.relations ∧
    WarSymmetric (applyOps initGameState
      [WarOp.declare 100 0 1, WarOp.accept_peace 50]).relations :=
  ⟨fun x y => by simp [initGameState],
   claim6 [WarOp.declare 100 0 1, WarOp.accept_peace 50] initGameState
     (fun x y => by simp [initGameState])⟩

lemma validate_war_declaration_iff (a d : Entity)
    (r : Entity → Finset Entity) :
    validate_war_declaration a d r = true ↔ ¬(a = d ∨ d ∈ r a) := by
  simp only [validate_war_declaration]
  split_ifs with h1 h2
  · simp [h1]
  · simp [h1, h2]
  · simp [h1, h2]

/-- Claim C7.  A declare-war request with attacker = defender, or whose
attacker's war relations already contain the defender, is rejected with no
state change at all; otherwise a `War` row is created (spawned and appended
to the active-wars list) and the symmetric entry is inserted into both
countries' war relations, every other country's relations being left
untouched. -/
theorem claim7 (st : GameState) (fresh attacker defender : Entity) :
    ((attacker = defender ∨ defender ∈ st.relations attacker) →
      handle_declare_war_event st fresh attacker defender = st) ∧
    (¬(attacker = defender ∨ defender ∈ st.relations attacker) →
      (handle_declare_war_event st fresh attacker defender).wars =
          st.wars ++ [(fresh, ⟨attacker, defender⟩)] ∧
      (handle_declare_war_event st fresh attacker defender).active_wars =
          st.active_wars ++ [fresh] ∧
      (handle_declare_war_event st fresh attacker defender).provinces =
          st.provinces ∧
      (handle_declare_war_event st fresh attacker defender).offers =
          st.offers ∧
      defender ∈
        (handle_declare_war_event st fresh attacker defender).relations
          attacker ∧
      attacker ∈
        (handle_declare_war_event st fresh attacker defender).relations
          defender ∧
      ∀ x, x ≠ attacker → x ≠ defender →
        (handle_declare_war_event st fresh attacker defender).relations x =
          st.relations x) := by
  constructor
  · intro hrej
    have hv : validate_war_declaration attacker defender st.relations =
        false := by
      cases hb : validate_war_declaration attacker defender st.relations with
      | false => rfl
      | true => exact absurd hrej ((validate_war_declaration_iff _ _ _).mp hb)
    simp [handle_declare_war_event, hv]
  · intro hacc
    have hv : validate_war_declaration attacker defender st.relations =
        true := (validate_war_declaration_iff _ _ _).mpr hacc
    refine ⟨?_, ?_, ?_, ?_, ?_, ?_, ?_⟩ <;>
      simp only [handle_declare_war_event, hv, if_true]
    · rw [mem_update_war_relations]; tauto
    · rw [mem_update_war_relations]; tauto
    · intro x hx1 hx2
      simp [update_war_relations, add_war_relation, hx1, hx2]

/-- Claim C7 witness: a self-war declaration (country 0 against itself) on
the initial state changes nothing. -/
theorem claim7_witness :
    handle_declare_war_event initGameState 5 0 0 = initGameState :=
  (claim7 initGameState 5 0 0).1 (Or.inl rfl)

lemma clear_occupations_no_belligerent (war : War)
    (provinces : List ProvinceRow) :
    ∀ p ∈ clear_occupations war provinces, ∀ occ, p.occupied = some occ →
      occ.occupier ≠ war.attacker ∧ occ.occupier ≠ war.defender := by
  intro p hp occ hocc
  simp only [clear_occupations, List.mem_map] at hp
  obtain ⟨q, hq, rfl⟩ := hp
  rcases hqo : q.occupied with _ | occ2
  · simp only [hqo] at hocc
    exact Option.noConfusion hocc
  · simp only [hqo] at hocc
    split_ifs at hocc with hc
    rw [hqo] at hocc
    injection hocc with h
    rw [← h]
    push_neg at hc
    exact hc

/-- Claim C10.  On peace acceptance (offer found, war found), every province
whose `Occupied` marker names either belligerent as the occupier ends with
that marker removed: afterwards no province's marker names the war's
attacker or defender.  The clearing is keyed only on the occupier — the
provinces' owners are universally quantified, so occupations held by a
belligerent over provinces owned by third countries are cleared too. -/
theorem claim10 (st : GameState) (offer_entity : Entity)
    (offer : PeaceOffer) (war : War)
    (ho : lookup st.offers offer_entity = some offer)
    (hw : lookup st.wars offer.war_entity = some war) :
    ∀ p ∈ (process_peace_acceptance st offer_entity).provinces,
      ∀ occ, p.occupied = some occ →
        occ.occupier ≠ war.attacker ∧ occ.occupier ≠ war.defender := by
  intro p hp occ hocc
  simp only [process_peace_acceptance, ho, hw, execute_peace_terms] at hp
  exact clear_occupations_no_belligerent war _ p hp occ hocc

/-- Claim C10 witness: accepting offer 50 (white peace) for war 0 between
countries 1 and 2, where province 7 — owned by third country 5 — is occupied
by a non-belligerent country 9, that surviving marker indeed names no
belligerent; the hypotheses and membership are discharged by computation. -/
theorem claim10_witness :
    (9 : Entity) ≠ 1 ∧ (9 : Entity) ≠ 2 :=
  claim10
    ⟨[(0, ⟨1, 2⟩)], [0], fun _ => ∅, [⟨7, 5, some ⟨9⟩⟩],
      [(50, ⟨1, 2, 0, []⟩)]⟩
    50 ⟨1, 2, 0, []⟩ ⟨1, 2⟩ (by decide) (by decide)
    ⟨7, 5, some ⟨9⟩⟩ (by decide) ⟨9⟩ rfl

/-- Claim C8.  AI peace-offer evaluation accepts exactly when the offer
demands zero provinces, or the number of demanded provinces actually owned
by the recipient is at most 2, or that count is under 30% of the recipient's
total province count (`10·k < 3·n`, the exact reading of the code's
`k/n < 0.3` with `n > 0`; for `n = 0` both sides are false).  In particular
any offer demanding exactly one province is accepted, whatever the
recipient's holdings. -/
theorem claim8 (offer : PeaceOffer) (provinces : List ProvinceRow) :
    (evaluate_peace_offer offer provinces = true ↔
      (offer.provinces_to_cede.length = 0 ∨
       count_provinces_from_recipient offer provinces ≤ 2 ∨
       10 * count_provinces_from_recipient offer provinces <
         3 * (provinces.filter
            (fun p => p.owner == offer.to_country)).length)) ∧
    (offer.provinces_to_cede.length = 1 →
      evaluate_peace_offer offer provinces = true) := by
  have hk : count_provinces_from_recipient offer provinces ≤
      offer.provinces_to_cede.length :=
    List.length_filter_le _ _
  constructor
  · simp only [evaluate_peace_offer]
    split_ifs with h1 h2 h3
    · simp [h1]
    · simp [h2]
    · simp only [decide_eq_true_eq]
      constructor
      · intro hr; exact Or.inr (Or.inr hr)
      · intro hr
        rcases hr with hr | hr | hr
        · exact absurd hr h1
        · exact absurd hr h2
        · exact hr
    · simp only [Nat.not_lt, Nat.le_zero] at h3
      simp [h1, h2, h3]
  · intro hlen
    simp only [evaluate_peace_offer]
    split_ifs with h1 h2
    · rfl
    · rfl
    · exact (h2 (by omega)).elim
    · exact (h2 (by omega)).elim

/-- Claim C8 witness: an offer from country 1 demanding one province (id 5)
of AI recipient 2, which owns 10 provinces, is accepted. -/
theorem claim8_witness :
    evaluate_peace_offer ⟨1, 2, 0, [5]⟩
      ((List.range 10).map fun i => ⟨i, 2, none⟩) = true :=
  (claim8 ⟨1, 2, 0, [5]⟩ ((List.range 10).map fun i => ⟨i, 2, none⟩)).2
    (by decide)

end EU6
